import Mathlib

/-!
# Verification of the pieBot trusted execution substrate

Shallow embedding of the core of the pieBot repository: the canonical JSON
codec (`packages/core/codec.py`), the hash-chained audit journal
(`packages/core/audit/writer.py`), the policy engine
(`packages/policy/engine.py`), the tool registry (`packages/tools/registry.py`),
the artifact store (`packages/tools/store.py`), the orchestrator
(`apps/server/orchestrator.py`) and the working memory
(`packages/memory/working_memory/store.py`), together with theorems settling
the specification claims about them.

Python `dict`s are embedded as insertion-ordered association lists, machine
reals/floats do not occur in the hashed data (the spec restricts hashed
payloads to null/bool/int/string/sequence/mapping), and Python exceptions are
embedded as `Except` values carrying the exception class name and message.
-/

namespace PieBot

/-! ## JSON values

The dynamic values that flow through the codec: `json.dumps`-serializable
data restricted, as the spec's §4.1 contract does, to null, bool, int,
string, sequence and mapping.  Mappings keep Python's insertion order;
`canonicalize` below sorts them. -/

inductive Json where
  | null
  | bool (value : Bool)
  | int (value : Int)
  | str (value : String)
  | arr (items : List Json)
  | obj (entries : List (String × Json))
deriving Repr

mutual

def decJson (a b : Json) : Decidable (a = b) := by
  cases a <;> cases b
  case null.null => exact isTrue rfl
  case bool.bool x y =>
    exact if h : x = y then isTrue (by rw [h]) else isFalse (by simp [h])
  case int.int x y =>
    exact if h : x = y then isTrue (by rw [h]) else isFalse (by simp [h])
  case str.str x y =>
    exact if h : x = y then isTrue (by rw [h]) else isFalse (by simp [h])
  case arr.arr xs ys =>
    letI := decJsonList xs ys
    exact if h : xs = ys then isTrue (by rw [h]) else isFalse (by simp [h])
  case obj.obj xs ys =>
    letI := decJsonKVList xs ys
    exact if h : xs = ys then isTrue (by rw [h]) else isFalse (by simp [h])
  all_goals exact isFalse nofun

def decJsonList : (a b : List Json) → Decidable (a = b)
  | [], [] => isTrue rfl
  | [], _ :: _ => isFalse nofun
  | _ :: _, [] => isFalse nofun
  | x :: xs, y :: ys =>
    letI := decJson x y
    letI := decJsonList xs ys
    if h1 : x = y then
      if h2 : xs = ys then isTrue (by rw [h1, h2])
      else isFalse (by simp [h1, h2])
    else isFalse (by simp [h1])

def decJsonKVList : (a b : List (String × Json)) → Decidable (a = b)
  | [], [] => isTrue rfl
  | [], _ :: _ => isFalse nofun
  | _ :: _, [] => isFalse nofun
  | (k1, v1) :: xs, (k2, v2) :: ys =>
    letI := decJson v1 v2
    letI := decJsonKVList xs ys
    if hk : k1 = k2 then
      if hv : v1 = v2 then
        if ht : xs = ys then isTrue (by rw [hk, hv, ht])
        else isFalse (by simp [hk, hv, ht])
      else isFalse (by simp [hk, hv])
    else isFalse (by simp [hk])

end

instance : DecidableEq Json := decJson

/-! ## Canonicalization (`codec.canonicalize`)

`canonicalize` rewrites every mapping into key-sorted form (Python `sorted`
on `str` keys: lexicographic order on code points), preserves sequence order
and recurses into nested values. -/

/-- Python `<` on strings: lexicographic comparison of code-point lists. -/
def strLt (a b : String) : Bool :=
  go a.data b.data
where
  go : List Char → List Char → Bool
    | [], [] => false
    | [], _ :: _ => true
    | _ :: _, [] => false
    | c :: cs, d :: ds =>
      if c.toNat < d.toNat then true
      else if d.toNat < c.toNat then false
      else go cs ds

/-- Insert a key/value pair into a key-sorted association list
(implements Python `sorted(obj.keys())` on the embedded dicts). -/
def insertSorted (p : String × Json) : List (String × Json) → List (String × Json)
  | [] => [p]
  | q :: rest => if strLt p.1 q.1 then p :: q :: rest else q :: insertSorted p rest

def sortKVs (kvs : List (String × Json)) : List (String × Json) :=
  kvs.foldr insertSorted []

mutual

/-- `codec.canonicalize`: key-sort every mapping recursively, keep sequence
order, leave scalars unchanged.  (The dataclass branch is handled where
records are converted to mappings, mirroring `dataclasses.asdict`.) -/
def canonicalizeJ : Json → Json
  | .null => .null
  | .bool b => .bool b
  | .int n => .int n
  | .str s => .str s
  | .arr xs => .arr (canonicalizeList xs)
  | .obj kvs => .obj (sortKVs (canonicalizeKVs kvs))

def canonicalizeList : List Json → List Json
  | [] => []
  | x :: xs => canonicalizeJ x :: canonicalizeList xs

def canonicalizeKVs : List (String × Json) → List (String × Json)
  | [] => []
  | (k, v) :: kvs => (k, canonicalizeJ v) :: canonicalizeKVs kvs

end

/-! ## Serialization (`json.dumps(canon, separators=(",", ":"), ensure_ascii=False)`)

Python's JSON encoder escapes `"` and `\` and every control character below
U+0020 (with the short escapes for backspace, form feed, newline, carriage
return and tab, and `\u00xx` otherwise); with `ensure_ascii=False` every
other character is emitted literally.  The result is UTF-8 encoded. -/

/-- The lowercase hex digit for `n < 16` (Python's `%x` formatting; the
callers only pass quotients and remainders below 16). -/
def hexDigit : Nat → Char
  | 0 => '0' | 1 => '1' | 2 => '2' | 3 => '3'
  | 4 => '4' | 5 => '5' | 6 => '6' | 7 => '7'
  | 8 => '8' | 9 => '9' | 10 => 'a' | 11 => 'b'
  | 12 => 'c' | 13 => 'd' | 14 => 'e' | _ => 'f'

/-- The decimal digit character for `n < 10`. -/
def digitChar : Nat → Char
  | 0 => '0' | 1 => '1' | 2 => '2' | 3 => '3' | 4 => '4'
  | 5 => '5' | 6 => '6' | 7 => '7' | 8 => '8' | _ => '9'

/-- Escape one character inside a JSON string literal. -/
def escapeChar (c : Char) : List Char :=
  if c = '"' then ['\\', '"']
  else if c = '\\' then ['\\', '\\']
  else if c.toNat = 8 then ['\\', 'b']
  else if c.toNat = 9 then ['\\', 't']
  else if c.toNat = 10 then ['\\', 'n']
  else if c.toNat = 12 then ['\\', 'f']
  else if c.toNat = 13 then ['\\', 'r']
  else if c.toNat < 32 then
    ['\\', 'u', '0', '0', hexDigit (c.toNat / 16), hexDigit (c.toNat % 16)]
  else [c]

/-- A JSON string literal: quote, escaped characters, quote. -/
def serStr (s : String) : List Char :=
  '"' :: (s.data.flatMap escapeChar) ++ ['"']

/-- Decimal digits of a natural number, fuelled so the kernel can reduce it
(the fuel `n + 1` always suffices since the argument shrinks tenfold). -/
def natDigitsF : Nat → Nat → List Char
  | 0, _ => []
  | fuel + 1, n =>
    if n < 10 then [digitChar n]
    else natDigitsF fuel (n / 10) ++ [digitChar (n % 10)]

def natDigits (n : Nat) : List Char := natDigitsF (n + 1) n

/-- Python `json.dumps` rendering of an int: optional minus sign, digits. -/
def serInt (n : Int) : List Char :=
  if n < 0 then '-' :: natDigits n.natAbs else natDigits n.natAbs

/-- Join pre-serialized items with the `","` separator. -/
def joinComma : List (List Char) → List Char
  | [] => []
  | [x] => x
  | x :: y :: rest => x ++ ',' :: joinComma (y :: rest)

mutual

/-- Serialize a (already canonicalized) JSON value with separators
`(",", ":")` and no whitespace, as a list of characters. -/
def serJson : Json → List Char
  | .null => ['n', 'u', 'l', 'l']
  | .int n => serInt n
  | .bool true => ['t', 'r', 'u', 'e']
  | .str s => serStr s
  | .bool false => ['f', 'a', 'l', 's', 'e']
  | .arr xs => '[' :: joinComma (serList xs) ++ [']']
  | .obj kvs => '{' :: joinComma (serKVList kvs) ++ ['}']

def serList : List Json → List (List Char)
  | [] => []
  | x :: xs => serJson x :: serList xs

def serKVList : List (String × Json) → List (List Char)
  | [] => []
  | (k, v) :: kvs => (serStr k ++ ':' :: serJson v) :: serKVList kvs

end

/-- UTF-8 encoding of one code point, as byte values. -/
def utf8Char (c : Char) : List Nat :=
  let n := c.toNat
  if n < 0x80 then [n]
  else if n < 0x800 then [0xC0 + n / 0x40, 0x80 + n % 0x40]
  else if n < 0x10000 then
    [0xE0 + n / 0x1000, 0x80 + (n / 0x40) % 0x40, 0x80 + n % 0x40]
  else
    [0xF0 + n / 0x40000, 0x80 + (n / 0x1000) % 0x40,
     0x80 + (n / 0x40) % 0x40, 0x80 + n % 0x40]

def utf8Encode (cs : List Char) : List Nat :=
  cs.flatMap utf8Char

/-- `codec.canonical_json_bytes`: canonicalize, then dump with no
inter-token whitespace, UTF-8 encoded. -/
def canonical_json_bytes (j : Json) : List Nat :=
  utf8Encode (serJson (canonicalizeJ j))

/-! ## SHA-256 (`hashlib.sha256`)

An executable SHA-256 over byte lists.  Words are naturals reduced mod
`2 ^ 32`. -/

namespace Sha256

def w32 (n : Nat) : Nat := n % 4294967296

def rotr (x n : Nat) : Nat := w32 ((x >>> n) ||| (x <<< (32 - n)))

def bsig0 (x : Nat) : Nat := rotr x 2 ^^^ rotr x 13 ^^^ rotr x 22
def bsig1 (x : Nat) : Nat := rotr x 6 ^^^ rotr x 11 ^^^ rotr x 25
def ssig0 (x : Nat) : Nat := rotr x 7 ^^^ rotr x 18 ^^^ (x >>> 3)
def ssig1 (x : Nat) : Nat := rotr x 17 ^^^ rotr x 19 ^^^ (x >>> 10)
def ch (x y z : Nat) : Nat := (x &&& y) ^^^ ((0xFFFFFFFF ^^^ x) &&& z)
def maj (x y z : Nat) : Nat := (x &&& y) ^^^ (x &&& z) ^^^ (y &&& z)

/-- The 64 round constants of SHA-256, in decimal. -/
def K : List Nat :=
  [1116352408, 1899447441, 3049323471, 3921009573, 961987163,
   1508970993, 2453635748, 2870763221, 3624381080, 310598401,
   607225278, 1426881987, 1925078388, 2162078206, 2614888103,
   3248222580, 3835390401, 4022224774, 264347078, 604807628,
   770255983, 1249150122, 1555081692, 1996064986, 2554220882,
   2821834349, 2952996808, 3210313671, 3336571891, 3584528711,
   113926993, 338241895, 666307205, 773529912, 1294757372,
   1396182291, 1695183700, 1986661051, 2177026350, 2456956037,
   2730485921, 2820302411, 3259730800, 3345764771, 3516065817,
   3600352804, 4094571909, 275423344, 430227734, 506948616,
   659060556, 883997877, 958139571, 1322822218, 1537002063,
   1747873779, 1955562222, 2024104815, 2227730452, 2361852424,
   2428436474, 2756734187, 3204031479, 3329325298]

/-- The eight initial hash words of SHA-256, in decimal. -/
def H0 : List Nat :=
  [1779033703, 3144134277, 1013904242, 2773480762,
   1359893119, 2600822924, 528734635, 1541459225]

/-- Big-endian 8-byte rendering of the bit length. -/
def be64 (n : Nat) : List Nat :=
  [n >>> 56 % 256, n >>> 48 % 256, n >>> 40 % 256, n >>> 32 % 256,
   n >>> 24 % 256, n >>> 16 % 256, n >>> 8 % 256, n % 256]

/-- Append the `0x80` byte, zero padding to 56 mod 64, and the length. -/
def pad (msg : List Nat) : List Nat :=
  let l := msg.length
  let zeros := (56 + 64 - (l + 1) % 64) % 64
  msg ++ 0x80 :: List.replicate zeros 0 ++ be64 (8 * l)

def bytesToWords : List Nat → List Nat
  | b0 :: b1 :: b2 :: b3 :: rest =>
      (((b0 * 256 + b1) * 256 + b2) * 256 + b3) :: bytesToWords rest
  | _ => []

def wordBytes (w : Nat) : List Nat :=
  [w >>> 24 % 256, w >>> 16 % 256, w >>> 8 % 256, w % 256]

/-- Extend the 16 message words to the 64-word schedule. -/
def extendSchedule : Nat → List Nat → List Nat
  | 0, ws => ws
  | k + 1, ws =>
      let i := ws.length
      let w := w32 (ssig1 (ws.getD (i - 2) 0) + ws.getD (i - 7) 0 +
                    ssig0 (ws.getD (i - 15) 0) + ws.getD (i - 16) 0)
      extendSchedule k (ws ++ [w])

/-- One compression round; the state is the eight working variables. -/
def round (st : List Nat) (wk : Nat × Nat) : List Nat :=
  match st with
  | [a, b, c, d, e, f, g, h] =>
      let t1 := w32 (h + bsig1 e + ch e f g + wk.2 + wk.1)
      let t2 := w32 (bsig0 a + maj a b c)
      [w32 (t1 + t2), a, b, c, w32 (d + t1), e, f, g]
  | other => other

def processBlock (hs : List Nat) (block : List Nat) : List Nat :=
  let ws := extendSchedule 48 (bytesToWords block)
  let st := (ws.zip K).foldl round hs
  List.zipWith (fun x y => w32 (x + y)) hs st

/-- Fold `processBlock` over the 64-byte chunks of the padded message; the
fuel (one unit per chunk) keeps the recursion structural so the kernel can
reduce it. -/
def processBlocksF : Nat → List Nat → List Nat → List Nat
  | 0, hs, _ => hs
  | _ + 1, hs, [] => hs
  | fuel + 1, hs, bs => processBlocksF fuel (processBlock hs (bs.take 64)) (bs.drop 64)

def digestBytes (msg : List Nat) : List Nat :=
  let padded := pad msg
  (processBlocksF padded.length H0 padded).flatMap wordBytes

end Sha256

def byteHex (b : Nat) : List Char := [hexDigit (b / 16), hexDigit (b % 16)]

/-- Lowercase hex digest of SHA-256, as `hashlib.sha256(b).hexdigest()`. -/
def sha256hex (msg : List Nat) : String :=
  String.mk ((Sha256.digestBytes msg).flatMap byteHex)

/-- `codec.stable_sha256`: SHA-256 over the canonical JSON bytes. -/
def stable_sha256 (j : Json) : String :=
  sha256hex (canonical_json_bytes j)

/-! ## Policy engine (`packages/policy/engine.py`)

`RiskClass` is a Python enum, but `decide` receives its `risk` argument
dynamically, so a value outside the enum is representable; the `other`
constructor stands for any such value (every `==` test against an enum
member is false on it). -/

inductive RiskClass where
  | READ
  | WRITE
  | EXEC
  | NETWORK
  | other (val : String)
deriving DecidableEq, Repr

/-- The `.value` attribute; for a non-enum object the registry's payload
rendering never type-checks in spirit, we expose the carried string. -/
def RiskClass.value : RiskClass → String
  | .READ => "READ"
  | .WRITE => "WRITE"
  | .EXEC => "EXEC"
  | .NETWORK => "NETWORK"
  | .other v => v

structure PolicyDecision where
  allow : Bool
  reason : String
  requires_approval : Bool := false
deriving DecidableEq, Repr

/-- Characters removed by Python `str.strip()` (the ASCII ones; the flag and
token strings the system reads contain no exotic Unicode spaces). -/
def isPyWhitespace (c : Char) : Bool :=
  c = ' ' || c = '\t' || c = '\n' || c = '\r' || c.toNat = 11 || c.toNat = 12

def pyStrip (s : String) : String :=
  String.mk (((s.data.dropWhile isPyWhitespace).reverse.dropWhile
    isPyWhitespace).reverse)

def asciiLowerChar (c : Char) : Char :=
  if 65 ≤ c.toNat && c.toNat ≤ 90 then Char.ofNat (c.toNat + 32) else c

def pyLower (s : String) : String := String.mk (s.data.map asciiLowerChar)

/-- `env_flag`: read an environment variable (`none` = unset), defaulting to
`"false"`, strip and lowercase it, and test membership in the truthy set. -/
def env_flag (v : Option String) (default : String := "false") : Bool :=
  let w := pyLower (pyStrip (v.getD default))
  w == "1" || w == "true" || w == "yes" || w == "y" || w == "on"

/-- The process environment slice the policy engine and approval gate read. -/
structure ProcEnv where
  execution_arm : Option String
  allow_exec : Option String
  allow_network : Option String
  approval_token : Option String
deriving DecidableEq, Repr

/-- `PolicyEngine.decide` (the engine object only stores the three
environment-variable names; the environment itself is the `env` argument).
The `args` parameter is accepted and defaulted but otherwise unread, exactly
as in the source. -/
def PolicyEngine.decide (env : ProcEnv) (tool_name : String) (risk : RiskClass)
    (args : Option (List (String × Json)) := none) : PolicyDecision :=
  let _args := args.getD []
  let armed := env_flag env.execution_arm
  let allow_exec := env_flag env.allow_exec
  let allow_network := env_flag env.allow_network
  if risk = .READ then
    ⟨true, "READ allowed by default", false⟩
  else if risk = .EXEC ∧ ¬allow_exec then
    ⟨false, "EXEC denied by default (ALLOW_EXEC=false)", false⟩
  else if risk = .NETWORK ∧ ¬allow_network then
    ⟨false, "NETWORK denied by default (ALLOW_NETWORK=false)", false⟩
  else if risk = .WRITE ∧ ¬armed then
    ⟨false, "WRITE denied (EXECUTION_ARM=false)", true⟩
  else if risk = .WRITE ∨ risk = .EXEC ∨ risk = .NETWORK then
    ⟨true, risk.value ++ " allowed by config; approval required", true⟩
  else
    ⟨false, "Unknown risk class", false⟩

/-! ## Approval gate (`packages/tools/approval.py`) -/

/-- `is_approved(token)`: compare the trimmed token with the trimmed
process-scoped expected value; empty or missing values fail closed.
Python truthiness: `not expected` holds for the empty string, and
`not token` holds for `None` and the empty string. -/
def is_approved (env : ProcEnv) (token : Option String) : Bool :=
  let expected := pyStrip (env.approval_token.getD "")
  if expected == "" then false
  else match token with
    | none => false
    | some t => if t == "" then false else pyStrip t == expected

/-! ## Core data types (`packages/core/types.py`) -/

/-- A raised Python exception, reduced to what the handlers read off it:
class name and message. -/
structure Exn where
  cls : String
  msg : String
deriving DecidableEq, Repr

/-- The `f"{e.__class__.__name__}: {e}"` rendering used by the registry and
the orchestrator. -/
def Exn.fmt (e : Exn) : String := e.cls ++ ": " ++ e.msg

structure ToolResult where
  run_id : String
  call_id : String
  ok : Bool
  result : List (String × Json)
  error : Option String
deriving DecidableEq, Repr

/-- `AuditEventType` from `types.py`: the closed `Literal` of event types. -/
def auditEventTypes : List String :=
  ["RunStarted", "ObservationCaptured", "PlanProposed", "PolicyDecision",
   "ApprovalRequested", "ApprovalGranted", "ApprovalDenied", "ToolExecuted",
   "ToolResultStored", "StateDeltaApplied", "RunCompleted", "RunFailed"]

/-- Encode an optional string the way `asdict` + JSON does: `None` is the
null sentinel. -/
def optStrJ : Option String → Json
  | none => .null
  | some s => .str s

/-- `dict.get(k)` on an embedded dict. -/
def dictGet (kvs : List (String × Json)) (k : String) : Option Json :=
  (kvs.find? (·.1 == k)).map (·.2)

def insertStr (s : String) : List String → List String
  | [] => [s]
  | t :: rest => if strLt s t then s :: t :: rest else t :: insertStr s rest

/-- Python `sorted` on a list of strings. -/
def sortStrings (l : List String) : List String := l.foldr insertStr []

/-! ## Artifact store (`packages/tools/store.py`) -/

/-- `store_tool_result`: write the canonical bytes of the payload to
`runtime_root/artifacts/tool_results/<call_id>.json` and return path, hash
and length. -/
def store_tool_result (runtime_root call_id : String) (payload : Json) :
    List (String × Json) :=
  let data := canonical_json_bytes payload
  [("artifact_path", .str (runtime_root ++ "/artifacts/tool_results/" ++
      call_id ++ ".json")),
   ("artifact_hash", .str (sha256hex data)),
   ("bytes", .int data.length)]

/-! ## Tool registry (`packages/tools/registry.py`)

`invoke` is embedded as a pure function from its inputs (the process
environment, the registered-tool lookup, the captured context, the minted
`call_id`, and the call data) to the returned `ToolResult` together with the
ordered list of side effects it performs.  An effect is either an
`audit.append` call or an artifact-store write; the translation of the
source body emits only the former, which is what claims C1 and C4 are
about. -/

structure ToolContext where
  repo_root : String
  runtime_root : String
deriving DecidableEq, Repr

structure ToolSpec where
  name : String
  risk : RiskClass
  schema : Json
  handler : List (String × Json) → ToolContext →
    Except (Exn × String) (List (String × Json))

inductive RegEffect where
  | auditAppend (type : String) (payload : Json)
  | storeArtifact (call_id : String) (payload : Json)
deriving DecidableEq, Repr

def RegEffect.eventType? : RegEffect → Option String
  | .auditAppend t _ => some t
  | .storeArtifact _ _ => none

/-- Lines 138–168 of `registry.py`: emit `ToolExecuted`, run the handler
capturing exceptions (`result.traceback` holds the bounded trace text),
emit `ToolResultStored` with the sorted result keys. -/
def ToolRegistry.execAndStore (spec : ToolSpec) (ctx : ToolContext)
    (run_id tool_name call_id : String) (args : List (String × Json)) :
    ToolResult × List RegEffect :=
  let teEv := RegEffect.auditAppend "ToolExecuted"
    (.obj [("tool_name", .str tool_name), ("call_id", .str call_id),
           ("args", .obj args)])
  let res : ToolResult :=
    match spec.handler args ctx with
    | .ok out => ⟨run_id, call_id, true, out, none⟩
    | .error (e, tb) =>
        ⟨run_id, call_id, false, [("traceback", .str tb)], some e.fmt⟩
  let trEv := RegEffect.auditAppend "ToolResultStored"
    (.obj [("tool_name", .str tool_name), ("call_id", .str call_id),
           ("ok", .bool res.ok), ("error", optStrJ res.error),
           ("result_keys", .arr ((sortStrings (res.result.map (·.1))).map .str))])
  (res, [teEv, trEv])

/-- `ToolRegistry.invoke`, lines 66–168 of `registry.py`. -/
def ToolRegistry.invoke (env : ProcEnv) (tools : String → Option ToolSpec)
    (ctx : ToolContext) (run_id tool_name : String)
    (args : List (String × Json)) (call_id : String) :
    ToolResult × List RegEffect :=
  match tools tool_name with
  | none =>
      let res : ToolResult := ⟨run_id, call_id, false, [], some "unknown tool"⟩
      (res,
       [.auditAppend "ToolExecuted"
          (.obj [("tool_name", .str tool_name), ("call_id", .str call_id),
                 ("args", .obj args)]),
        .auditAppend "ToolResultStored"
          (.obj [("tool_name", .str tool_name), ("call_id", .str call_id),
                 ("ok", .bool false), ("error", .str "unknown tool")])])
  | some spec =>
      let decision := PolicyEngine.decide env tool_name spec.risk (some args)
      let pdEv := RegEffect.auditAppend "PolicyDecision"
        (.obj [("tool_name", .str tool_name), ("call_id", .str call_id),
               ("risk", .str spec.risk.value), ("allow", .bool decision.allow),
               ("requires_approval", .bool decision.requires_approval),
               ("reason", .str decision.reason)])
      if !decision.allow then
        let res : ToolResult :=
          ⟨run_id, call_id, false, [],
           some ("blocked by policy: " ++ decision.reason)⟩
        (res,
         [pdEv,
          .auditAppend "ToolExecuted"
            (.obj [("tool_name", .str tool_name), ("call_id", .str call_id),
                   ("args", .obj args), ("blocked", .bool true)]),
          .auditAppend "ToolResultStored"
            (.obj [("tool_name", .str tool_name), ("call_id", .str call_id),
                   ("ok", .bool false), ("error", optStrJ res.error)])])
      else if decision.requires_approval then
        let tok := dictGet args "approval_token"
        let tokStr : Option String :=
          match tok with
          | some (.str s) => some s
          | _ => none
        let approved := is_approved env tokStr
        let arEv := RegEffect.auditAppend "ApprovalRequested"
          (.obj [("tool_name", .str tool_name), ("call_id", .str call_id),
                 ("approved", .bool approved)])
        if !approved then
          let res : ToolResult :=
            ⟨run_id, call_id, false, [], some "approval required"⟩
          (res,
           [pdEv, arEv,
            .auditAppend "ToolResultStored"
              (.obj [("tool_name", .str tool_name), ("call_id", .str call_id),
                     ("ok", .bool false), ("error", optStrJ res.error)])])
        else
          let (res, tail) :=
            ToolRegistry.execAndStore spec ctx run_id tool_name call_id args
          (res, pdEv :: arEv :: tail)
      else
        let (res, tail) :=
          ToolRegistry.execAndStore spec ctx run_id tool_name call_id args
        (res, pdEv :: tail)

/-! ## Audit journal (`packages/core/audit/writer.py`)

The journal file is modelled as the list of records written to it (`none`
when the file does not exist); the line-delimited canonical-JSON
serialize/parse round trip is the identity on these records, so the
verifier below reads the records directly.  The writer is parametric in
`redact`, the `redact_text` function it imports from the policy module. -/

structure AuditEvent where
  run_id : String
  type : String
  ts_utc : String
  payload : Json
  prev_hash : Option String
  hash : Option String
deriving DecidableEq, Repr

/-- `dataclasses.asdict` on an `AuditEvent`, in dataclass field order
(`canonicalize` sorts the keys before anything is hashed or written). -/
def AuditEvent.asdict (ev : AuditEvent) : Json :=
  .obj [("run_id", .str ev.run_id), ("type", .str ev.type),
        ("ts_utc", .str ev.ts_utc), ("payload", ev.payload),
        ("prev_hash", optStrJ ev.prev_hash), ("hash", optStrJ ev.hash)]

mutual

/-- `_redact_payload`'s `walk`: strings through `redact_text`, mappings and
sequences recursively, other scalars unchanged. -/
def redactJ (redact : String → String) : Json → Json
  | .null => .null
  | .bool b => .bool b
  | .int n => .int n
  | .str s => .str (redact s)
  | .arr xs => .arr (redactList redact xs)
  | .obj kvs => .obj (redactKVs redact kvs)

def redactList (redact : String → String) : List Json → List Json
  | [] => []
  | x :: xs => redactJ redact x :: redactList redact xs

def redactKVs (redact : String → String) :
    List (String × Json) → List (String × Json)
  | [] => []
  | (k, v) :: kvs => (k, redactJ redact v) :: redactKVs redact kvs

end

structure WriterState where
  last_hash : Option String
  file : Option (List AuditEvent)
deriving Repr

/-- Construction over a missing file: nothing exists yet, tip is absent. -/
def WriterState.initAbsent : WriterState := ⟨none, none⟩

/-- Construction over an existing zero-byte file: tail recovery finds no
parseable line, tip is absent. -/
def WriterState.initEmptyFile : WriterState := ⟨none, some []⟩

/-- One `append(run_id, type, payload)` call together with the wall-clock
reading `_utc_iso()` returns during it. -/
structure AppendCall where
  run_id : String
  type : String
  payload : Json
  ts_utc : String
deriving Repr

/-- `AuditWriter.append`: build the event with `prev_hash = tip` and
`hash = None`, redact the payload, hash the canonical encoding of the
`asdict` form (whose `hash` key holds the null sentinel), store the event
with the hash filled in, and advance the tip. -/
def AuditWriter.append (redact : String → String) (st : WriterState)
    (c : AppendCall) : WriterState × AuditEvent :=
  let ev : AuditEvent :=
    ⟨c.run_id, c.type, c.ts_utc, redactJ redact c.payload, st.last_hash, none⟩
  let h := stable_sha256 ev.asdict
  let ev' : AuditEvent := { ev with hash := some h }
  (⟨some h, some (st.file.getD [] ++ [ev'])⟩, ev')

/-- An unbroken sequence of `append` calls. -/
def AuditWriter.appendAll (redact : String → String) (st : WriterState) :
    List AppendCall → WriterState
  | [] => st
  | c :: cs => AuditWriter.appendAll redact (AuditWriter.append redact st c).1 cs

/-- The hash the verifier recomputes for a parsed record: copy the object,
set its `hash` key to the null sentinel, `stable_sha256` it. -/
def verifyRecompute (ev : AuditEvent) : String :=
  stable_sha256 (AuditEvent.asdict { ev with hash := none })

/-- The loop of `verify_audit_log`, over records numbered from 1. -/
def verifyLoop : Option String → Nat → List AuditEvent → Bool × Option String
  | _, _, [] => (true, none)
  | prev, line_no, ev :: rest =>
    if ev.prev_hash ≠ prev then
      (false, some ("prev_hash mismatch at line " ++ toString line_no))
    else if ev.hash ≠ some (verifyRecompute ev) then
      (false, some ("hash mismatch at line " ++ toString line_no))
    else verifyLoop ev.hash (line_no + 1) rest

/-- `verify_audit_log`: missing file fails; otherwise check the prev-hash
chain and each recomputed hash. -/
def verify_audit_log : Option (List AuditEvent) → Bool × Option String
  | none => (false, some "audit log does not exist")
  | some evs => verifyLoop none 1 evs

/-- The spec's reading of the hash input (claim C3): the canonical encoding
of the same record with the `hash` field absent — the key not encoded at
all, as opposed to carrying the null sentinel. -/
def AuditEvent.asdictHashAbsent (ev : AuditEvent) : Json :=
  .obj [("run_id", .str ev.run_id), ("type", .str ev.type),
        ("ts_utc", .str ev.ts_utc), ("payload", ev.payload),
        ("prev_hash", optStrJ ev.prev_hash)]

/-! ## Orchestrator (`apps/server/orchestrator.py`)

`run_once` is embedded as a function of the observation and of the
behaviour of its collaborators: the router-resolved backends, the registry
`invoke`, and the journal.  Backend resolution and backend calls may raise
(`Except Exn`); the journal may fail at any of the orchestrator's own
`append` calls (`journal_fail`, indexed by how many such appends ran so
far).  The journal trace is the list of `(type, payload)` pairs appended —
the orchestrator's own appends plus the events each `invoke` appends.
Python's in-place growth of `results` and the already-written journal lines
survive a raised exception, so the attempt body's error value carries the
trace state and results accumulated so far. -/

inductive AgentType where
  | planner
  | executor
  | critic
deriving DecidableEq, Repr

def AgentType.value : AgentType → String
  | .planner => "planner"
  | .executor => "executor"
  | .critic => "critic"

/-- Modelled from the spec: `CriticDecision` is imported from
`packages.core.types` by the orchestrator and the null model, but its
definition is not among the provided sources; spec §3 fixes the decision
set as {passed, retry, failed}. -/
inductive CriticDecision where
  | passed
  | retry
  | failed
deriving DecidableEq, Repr

def CriticDecision.value : CriticDecision → String
  | .passed => "passed"
  | .retry => "retry"
  | .failed => "failed"

/-- Modelled from the spec: `CriticReport` { run_id, decision, reason,
retry_hint (optional) }, imported from `packages.core.types` but not among
the provided sources. -/
structure CriticReport where
  run_id : String
  decision : CriticDecision
  reason : String
  retry_hint : Option String := none
deriving DecidableEq, Repr

structure ObservationEvent where
  run_id : String
  kind : String
  data : List (String × Json)
deriving DecidableEq, Repr

structure ToolCall where
  run_id : String
  tool_name : String
  args : List (String × Json)
  call_id : String
deriving DecidableEq, Repr

structure ToolPlan where
  run_id : String
  agent_type : AgentType
  tool_calls : List ToolCall
  note : Option String
deriving DecidableEq, Repr

structure RunResult where
  run_id : String
  ok : Bool
  tool_results : List ToolResult
  error : Option String
deriving DecidableEq, Repr

/-- A journal trace entry: event type and payload of one `append`. -/
abbrev OrchEvent := String × Json

/-- Journal-append count and trace so far. -/
abbrev JSt := Nat × List OrchEvent

/-- A role backend as the orchestrator calls it. -/
structure Backend where
  plan : ObservationEvent → Except Exn ToolPlan
  execute : ToolPlan → Except Exn ToolPlan
  critique : ObservationEvent → List ToolResult → Except Exn CriticReport

/-- The collaborators of one `run_once` call.  `get_backend` is indexed by
attempt number (backends may behave differently across attempts);
`invoke` by attempt and call position; `journal_fail` by the index of the
orchestrator's own append. -/
structure OrchEnv where
  get_backend : Nat → String → Except Exn Backend
  invoke : Nat → Nat → String → String → List (String × Json) →
    Except Exn (ToolResult × List OrchEvent)
  journal_fail : Nat → Option Exn

/-- One `self._audit.append(...)` from the orchestrator. -/
def orchAppend (env : OrchEnv) (st : JSt) (ty : String) (p : Json) :
    Except Exn JSt :=
  match env.journal_fail st.1 with
  | some e => .error e
  | none => .ok (st.1 + 1, st.2 ++ [(ty, p)])

/-- `Orchestrator._audit_plan`'s payload. -/
def planPayload (attempt : Nat) (plan : ToolPlan) : Json :=
  .obj [("attempt", .int attempt), ("agent_type", .str plan.agent_type.value),
        ("tool_calls", .arr (plan.tool_calls.map fun c =>
          .obj [("tool_name", .str c.tool_name), ("args", .obj c.args),
                ("call_id", .str c.call_id)])),
        ("note", optStrJ plan.note)]

/-- Attach the journal/results state at raise time to an exception, so the
`except` handler sees what the partially-run body left behind. -/
def liftE {α : Type} (st : JSt) (results : List ToolResult) :
    Except Exn α → Except (Exn × JSt × List ToolResult) α
  | .ok a => .ok a
  | .error e => .error (e, st, results)

/-- The tool loop of one attempt: invoke each call, appending its result to
the attempt's and the run's result lists and its audit events to the trace. -/
def invokeCalls (env : OrchEnv) (attempt : Nat) (run_id : String) :
    List ToolCall → Nat → JSt → List ToolResult → List ToolResult →
    Except (Exn × JSt × List ToolResult)
      (List ToolResult × List ToolResult × JSt)
  | [], _, st, attRes, results => .ok (attRes, results, st)
  | c :: cs, i, st, attRes, results =>
    match env.invoke attempt i run_id c.tool_name c.args with
    | .error e => .error (e, st, results)
    | .ok (res, evs) =>
        invokeCalls env attempt run_id cs (i + 1) (st.1, st.2 ++ evs)
          (attRes ++ [res]) (results ++ [res])

/-- What one iteration of the attempt loop decides. -/
inductive AttemptOut where
  | done (res : RunResult) (st : JSt)
  | continueRetry (st : JSt) (results : List ToolResult)

/-- The `try` body of one attempt (lines 58–103): resolve the three
backends, plan, audit, execute-transform, audit, run the tools, critique,
audit, and branch on the decision. -/
def attemptBody (env : OrchEnv) (obs : ObservationEvent)
    (attempt max_attempts : Nat) (st0 : JSt) (results0 : List ToolResult) :
    Except (Exn × JSt × List ToolResult) AttemptOut := do
  let run_id := obs.run_id
  let planner ← liftE st0 results0 (env.get_backend attempt "planner")
  let executor ← liftE st0 results0 (env.get_backend attempt "executor")
  let critic ← liftE st0 results0 (env.get_backend attempt "critic")
  let plan ← liftE st0 results0 (planner.plan obs)
  let st1 ← liftE st0 results0
    (orchAppend env st0 "PlanProposed" (planPayload attempt plan))
  let exec_plan ← liftE st1 results0 (executor.execute plan)
  let st2 ← liftE st1 results0
    (orchAppend env st1 "PlanProposed" (planPayload attempt exec_plan))
  let (attempt_results, results, st3) ←
    invokeCalls env attempt run_id exec_plan.tool_calls 0 st2 [] results0
  let report ← liftE st3 results (critic.critique obs attempt_results)
  let st4 ← liftE st3 results
    (orchAppend env st3 "CriticReport"
      (.obj [("attempt", .int attempt),
             ("decision", .str report.decision.value),
             ("reason", .str report.reason),
             ("retry_hint", optStrJ report.retry_hint)]))
  match report.decision with
  | .passed =>
      let st5 ← liftE st4 results
        (orchAppend env st4 "RunCompleted" (.obj [("attempts", .int attempt)]))
      return .done ⟨run_id, true, results, none⟩ st5
  | .retry =>
      if attempt < max_attempts then
        return .continueRetry st4 results
      else
        let st5 ← liftE st4 results
          (orchAppend env st4 "RunFailed"
            (.obj [("error", .str report.reason), ("attempts", .int attempt)]))
        return .done ⟨run_id, false, results, some report.reason⟩ st5
  | .failed =>
      let st5 ← liftE st4 results
        (orchAppend env st4 "RunFailed"
          (.obj [("error", .str report.reason), ("attempts", .int attempt)]))
      return .done ⟨run_id, false, results, some report.reason⟩ st5

/-- The attempt loop with its `except` handler.  The handler's own
`RunFailed` append is outside any `try`, so its failure propagates. -/
def runAttempts (env : OrchEnv) (obs : ObservationEvent) (max_attempts : Nat) :
    Nat → Nat → JSt → List ToolResult → Except Exn (RunResult × JSt)
  | 0, _, st, results => do
      let st ← orchAppend env st "RunFailed"
        (.obj [("error", .str "max attempts exceeded")])
      return (⟨obs.run_id, false, results, some "max attempts exceeded"⟩, st)
  | remaining + 1, attempt, st, results =>
      match attemptBody env obs attempt max_attempts st results with
      | .ok (.done res st') => .ok (res, st')
      | .ok (.continueRetry st' results') =>
          runAttempts env obs max_attempts remaining (attempt + 1) st' results'
      | .error (e, st', results') => do
          let err := e.fmt
          let st'' ← orchAppend env st' "RunFailed"
            (.obj [("error", .str err), ("attempts", .int attempt)])
          return (⟨obs.run_id, false, results', some err⟩, st'')

/-- `Orchestrator.run_once`.  The `RunStarted` and `ObservationCaptured`
appends precede the `try`, so their failures propagate out of the call. -/
def Orchestrator.run_once (env : OrchEnv) (obs : ObservationEvent)
    (max_attempts : Nat := 2) : Except Exn (RunResult × List OrchEvent) := do
  let st0 : JSt := (0, [])
  let st1 ← orchAppend env st0 "RunStarted"
    (.obj [("run_id", .str obs.run_id)])
  let st2 ← orchAppend env st1 "ObservationCaptured"
    (.obj [("kind", .str obs.kind), ("data", .obj obs.data)])
  let (res, st) ← runAttempts env obs max_attempts max_attempts 1 st2 []
  return (res, st.2)

/-! ## Working memory (`packages/memory/working_memory/store.py`)

Time is embedded as an integer clock passed to each public call (the
source reads `time.time()`), and `_approx_size` — the byte length of
Python's `repr` of the host value — as a size function on the value type. -/

structure WMEntry (V : Type) where
  value : V
  expires_at : Int
  run_id : Option String
  approx_bytes : Nat
deriving DecidableEq, Repr

structure WorkingMemory (V : Type) where
  max_entries : Nat
  max_bytes : Nat
  items : List (String × WMEntry V)
  bytes_used : Nat
deriving DecidableEq, Repr

/-- Remove a dict binding (keys are unique; first match is the binding). -/
def eraseKey {V : Type} : List (String × WMEntry V) → String →
    List (String × WMEntry V)
  | [], _ => []
  | (k, e) :: rest, key => if k == key then rest else (k, e) :: eraseKey rest key

/-- `WorkingMemory._drop`: pop the key and subtract its cost, floored at 0
(`max(0, ...)` in the source; `Nat` subtraction is that floor). -/
def WorkingMemory.drop {V : Type} (wm : WorkingMemory V) (key : String) :
    WorkingMemory V :=
  match wm.items.find? (·.1 == key) with
  | none => wm
  | some (_, e) =>
      { wm with items := eraseKey wm.items key,
                bytes_used := wm.bytes_used - e.approx_bytes }

/-- `WorkingMemory._evict_expired`: drop every key whose expiry is ≤ now. -/
def WorkingMemory.evictExpired {V : Type} (wm : WorkingMemory V) (now : Int) :
    WorkingMemory V :=
  let expired := (wm.items.filter (fun p => p.2.expires_at ≤ now)).map (·.1)
  expired.foldl WorkingMemory.drop wm

/-- `WorkingMemory.set`: refuse non-positive TTLs, evict expired entries,
drop a previous binding of the key, fail closed on either cap, else insert. -/
def WorkingMemory.set {V : Type} (sizeOfV : V → Nat) (wm : WorkingMemory V)
    (key : String) (value : V) (ttl_seconds : Int) (now : Int)
    (run_id : Option String := none) : Bool × WorkingMemory V :=
  if ttl_seconds ≤ 0 then (false, wm)
  else
    let wm1 := wm.evictExpired now
    let approx := sizeOfV value
    let expires_at := now + ttl_seconds
    let wm2 := if (wm1.items.find? (·.1 == key)).isSome then wm1.drop key else wm1
    if wm2.items.length + 1 > wm2.max_entries then (false, wm2)
    else if wm2.bytes_used + approx > wm2.max_bytes then (false, wm2)
    else
      (true,
       { wm2 with
         items := wm2.items ++ [(key, ⟨value, expires_at, run_id, approx⟩)],
         bytes_used := wm2.bytes_used + approx })

/-- `WorkingMemory.get`: evict expired entries, then look up. -/
def WorkingMemory.get {V : Type} (wm : WorkingMemory V) (key : String)
    (now : Int) : Option V × WorkingMemory V :=
  let wm1 := wm.evictExpired now
  ((wm1.items.find? (·.1 == key)).map (·.2.value), wm1)

/-- `_approx_size` for plain quote-free ASCII strings: `repr` adds the two
surrounding quotes. -/
def pyReprLen (s : String) : Nat := s.data.length + 2

/-! ## Derived definitions used by the theorems -/

/-- The audit event-type sequence `invoke` emits on each path (claim C1 as
amended): unknown tool → `ToolExecuted, ToolResultStored`; known and denied
→ `PolicyDecision, ToolExecuted, ToolResultStored`; known, allowed,
approval required but not granted → `PolicyDecision, ApprovalRequested,
ToolResultStored` (no `ToolExecuted`); known, allowed, approval granted →
all four; known, allowed, no approval needed → `PolicyDecision,
ToolExecuted, ToolResultStored`. -/
def invokeEventTypes (known allow requires_approval approved : Bool) :
    List String :=
  if !known then ["ToolExecuted", "ToolResultStored"]
  else if !allow then ["PolicyDecision", "ToolExecuted", "ToolResultStored"]
  else if requires_approval && !approved then
    ["PolicyDecision", "ApprovalRequested", "ToolResultStored"]
  else if requires_approval then
    ["PolicyDecision", "ApprovalRequested", "ToolExecuted", "ToolResultStored"]
  else ["PolicyDecision", "ToolExecuted", "ToolResultStored"]

/-- The `approval_token` argument as the registry reads it
(`args.get("approval_token")` filtered through `isinstance(tok, str)`). -/
def argToken (args : List (String × Json)) : Option String :=
  match dictGet args "approval_token" with
  | some (.str s) => some s
  | _ => none

/-- Whether a registry effect is an artifact-store write. -/
def RegEffect.isStore : RegEffect → Bool
  | .storeArtifact _ _ => true
  | _ => false

/-- Look a key up in a JSON object. -/
def jsonObjGet : Json → String → Option Json
  | .obj kvs, k => dictGet kvs k
  | _, _ => none

/-- Process environment with execution armed and an expected approval
token — the scenario of spec §8 item 4. -/
def envArm : ProcEnv := ⟨some "true", none, none, some "expected"⟩

/-- A WRITE-risk tool like `git.apply_patch`, with a trivially succeeding
handler (the handler body is irrelevant to the event order). -/
def patchSpec : ToolSpec :=
  ⟨"git.apply_patch", .WRITE, .obj [], fun _ _ => .ok [("applied", .bool true)]⟩

def toolsPatch : String → Option ToolSpec :=
  fun n => if n == "git.apply_patch" then some patchSpec else none

def ctx0 : ToolContext := ⟨"/repo", "/runtime"⟩

def argsWrongTok : List (String × Json) := [("approval_token", .str "wrong")]

/-- Default (all-unset) process environment. -/
def envDefault : ProcEnv := ⟨none, none, none, none⟩

/-- A READ-risk tool like `fs.read_file` whose handler returns a result. -/
def readSpec : ToolSpec :=
  ⟨"fs.read_file", .READ, .obj [], fun _ _ => .ok [("text", .str "hi")]⟩

def toolsRead : String → Option ToolSpec :=
  fun n => if n == "fs.read_file" then some readSpec else none

/-- `AuditWriter._write_line`: the canonical bytes of the event dict plus
the newline terminator. -/
def writeLineBytes (ev : AuditEvent) : List Nat :=
  canonical_json_bytes ev.asdict ++ [10]

/-- The journal tip after a list of records, starting from `prev`
(the stored `hash` of the last record, or `prev` for an empty list). -/
def lastTip (prev : Option String) : List AuditEvent → Option String
  | [] => prev
  | ev :: rest => lastTip ev.hash rest

/-- A concrete first append (no redactable substring in the payload, so
`redact_text` is the identity on it and is instantiated accordingly). -/
def ev3 : AuditEvent :=
  (AuditWriter.append (fun s => s) WriterState.initAbsent
    ⟨"r1", "RunStarted", .obj [("x", .str "y")], "2026-01-01T00:00:00Z"⟩).2

/-- A backend behaving as the deterministic `NullModel` does on a `text`
observation: empty no-op plan, executor relabels, critic passes. -/
def passBackend : Backend :=
  ⟨fun obs => .ok ⟨obs.run_id, .planner, [], some "no-op"⟩,
   fun plan => .ok ⟨plan.run_id, .executor, plan.tool_calls, plan.note⟩,
   fun obs _ => .ok ⟨obs.run_id, .passed, "all tool calls ok", none⟩⟩

/-- Collaborators for a happy-path run: null-style backends, reliable
journal (the registry is never reached: the plan holds no tool calls). -/
def envPass : OrchEnv :=
  ⟨fun _ _ => .ok passBackend,
   fun _ _ _ _ _ => .error ⟨"RuntimeError", "no tool calls in plan"⟩,
   fun _ => none⟩

def obsText : ObservationEvent := ⟨"r1", "text", []⟩

/-- Collaborators whose journal fails from the first append on. -/
def envJournalBroken : OrchEnv :=
  ⟨fun _ _ => .ok passBackend,
   fun _ _ _ _ _ => .error ⟨"RuntimeError", "no tool calls in plan"⟩,
   fun _ => some ⟨"OSError", "disk full"⟩⟩

/-- Collaborators whose planner resolution raises but whose journal is
reliable. -/
def envPlannerRaises : OrchEnv :=
  ⟨fun _ _ => .error ⟨"RuntimeError", "no model routed for role"⟩,
   fun _ _ _ _ _ => .error ⟨"RuntimeError", "not reached"⟩,
   fun _ => none⟩

/-- A bounded working memory as in the repository's byte-cap test:
ten entries, five bytes. -/
def wmTiny : WorkingMemory String := ⟨10, 5, [], 0⟩

/-- `wmTiny` after `set("k", "a", ttl_seconds=10)` at time 0 (which
succeeds: the entry costs `len(repr("a")) = 3` of the 5-byte budget). -/
def wmAfterFirstSet : WorkingMemory String :=
  (WorkingMemory.set pyReprLen wmTiny "k" "a" 10 0 none).2

/-! # Theorems -/

/-! ## C5 — policy risk invariants -/

/-- C5: for every tool name, args mapping and flag configuration,
`PolicyEngine.decide` returns allow with no approval on READ, and on
WRITE, EXEC and NETWORK an allowing decision always requires approval
(stated as the boolean implication `!allow || requires_approval`). -/
theorem C5_policy_risk_invariants (env : ProcEnv) (tool_name : String)
    (args : Option (List (String × Json))) :
    (PolicyEngine.decide env tool_name .READ args).allow = true ∧
    (PolicyEngine.decide env tool_name .READ args).requires_approval = false ∧
    (!(PolicyEngine.decide env tool_name .WRITE args).allow ||
      (PolicyEngine.decide env tool_name .WRITE args).requires_approval) = true ∧
    (!(PolicyEngine.decide env tool_name .EXEC args).allow ||
      (PolicyEngine.decide env tool_name .EXEC args).requires_approval) = true ∧
    (!(PolicyEngine.decide env tool_name .NETWORK args).allow ||
      (PolicyEngine.decide env tool_name .NETWORK args).requires_approval) = true := by
  refine ⟨rfl, rfl, ?_, ?_, ?_⟩
  · simp only [PolicyEngine.decide]
    cases env_flag env.execution_arm <;> simp
  · simp only [PolicyEngine.decide]
    cases env_flag env.allow_exec <;> simp
  · simp only [PolicyEngine.decide]
    cases env_flag env.allow_network <;> simp

/-! ## C9 — unknown risk class -/

/-- C9 counterexample: the decision on a non-enum risk value carries the
reason string `"Unknown risk class"` (capital U), not the claimed
`"unknown risk class"`. -/
theorem C9_counterexample_reason_capitalization :
    (PolicyEngine.decide envDefault "tool" (.other "BOGUS") none).reason
        = "Unknown risk class" ∧
      "Unknown risk class" ≠ "unknown risk class" := by decide

/-- C9 as amended: `decide` is total, and on every risk value outside the
enum it deterministically returns
`(allow = false, requires_approval = false, reason = "Unknown risk class")`,
for every tool name, args mapping and flag configuration. -/
theorem C9_amended_unknown_risk_decision (env : ProcEnv) (tool_name : String)
    (args : Option (List (String × Json))) (s : String) :
    PolicyEngine.decide env tool_name (.other s) args
      = ⟨false, "Unknown risk class", false⟩ := by
  simp [PolicyEngine.decide]

/-! ## C1 — audit event order of `invoke` -/

/-- C1 counterexample: a known tool whose decision allows with approval
required, given a wrong token, yields the event sequence
`PolicyDecision, ApprovalRequested, ToolResultStored` — no `ToolExecuted`
is emitted, contradicting the claim's "including when the approval check
fails". -/
theorem C1_counterexample_approval_failure_skips_ToolExecuted :
    (toolsPatch "git.apply_patch").isSome = true ∧
    (PolicyEngine.decide envArm "git.apply_patch" RiskClass.WRITE
        (some argsWrongTok)).allow = true ∧
    ((ToolRegistry.invoke envArm toolsPatch ctx0 "r1" "git.apply_patch"
        argsWrongTok "c1").2.filterMap RegEffect.eventType?)
      = ["PolicyDecision", "ApprovalRequested", "ToolResultStored"] ∧
    "ToolExecuted" ∉
      ((ToolRegistry.invoke envArm toolsPatch ctx0 "r1" "git.apply_patch"
          argsWrongTok "c1").2.filterMap RegEffect.eventType?) := by decide

/-- C1 as amended: every `invoke` emits exactly the event-type sequence
`invokeEventTypes known allow requires_approval approved` — in particular
`PolicyDecision` precedes `ApprovalRequested` precedes `ToolExecuted`
precedes `ToolResultStored` wherever they occur, but the approval-failure
path emits no `ToolExecuted`. -/
theorem C1_amended_invoke_event_order (env : ProcEnv)
    (tools : String → Option ToolSpec) (ctx : ToolContext)
    (run_id tool_name : String) (args : List (String × Json))
    (call_id : String) :
    ((ToolRegistry.invoke env tools ctx run_id tool_name args call_id).2.filterMap
      RegEffect.eventType?) =
    invokeEventTypes (tools tool_name).isSome
      ((tools tool_name).elim true fun spec =>
        (PolicyEngine.decide env tool_name spec.risk (some args)).allow)
      ((tools tool_name).elim false fun spec =>
        (PolicyEngine.decide env tool_name spec.risk (some args)).requires_approval)
      (is_approved env (argToken args)) := by
  rcases htools : tools tool_name with _ | spec
  · simp [ToolRegistry.invoke, invokeEventTypes, htools, RegEffect.eventType?]
  · rcases hd : PolicyEngine.decide env tool_name spec.risk (some args) with
      ⟨allow, reason, req⟩
    simp only [ToolRegistry.invoke, invokeEventTypes, htools, Option.isSome_some,
      Option.elim, hd]
    rcases allow
    · simp [RegEffect.eventType?]
    · rcases req
      · simp only [Bool.not_true, Bool.false_and, Bool.not_false, ite_false,
          ite_true, ToolRegistry.execAndStore]
        rcases spec.handler args ctx with e | out <;> simp [RegEffect.eventType?]
      · rcases happ : is_approved env (argToken args)
        · simp only [argToken] at happ
          simp [happ, RegEffect.eventType?, argToken]
        · simp only [argToken] at happ
          simp only [happ, Bool.not_true, Bool.not_false, Bool.and_false,
            ite_false, ite_true, ToolRegistry.execAndStore]
          rcases spec.handler args ctx with e | out <;> simp [RegEffect.eventType?]

/-! ## C4 — result payloads and the artifact store -/

/-- C4 counterexample: a successful invocation of a READ tool — the
handler runs (`ok = true`) — performs no artifact-store write at all;
the result payload is not persisted keyed by `call_id`. -/
theorem C4_counterexample_no_artifact_store_call :
    (ToolRegistry.invoke envDefault toolsRead ctx0 "r1" "fs.read_file"
        [("path", .str "hello.txt")] "c1").1.ok = true ∧
    ((ToolRegistry.invoke envDefault toolsRead ctx0 "r1" "fs.read_file"
        [("path", .str "hello.txt")] "c1").2.filter RegEffect.isStore) = [] := by
  decide

/-- C4 as amended: `invoke` never writes to the artifact store on any
path, while the standalone `store_tool_result` is the piece that, when
called, persists a payload's canonical bytes at
`runtime_root/artifacts/tool_results/<call_id>.json`. -/
theorem C4_amended_invoke_never_stores_artifacts (env : ProcEnv)
    (tools : String → Option ToolSpec) (ctx : ToolContext)
    (run_id tool_name : String) (args : List (String × Json))
    (call_id : String) (rt cid : String) (payload : Json) :
    ((ToolRegistry.invoke env tools ctx run_id tool_name args call_id).2.filter
      RegEffect.isStore) = [] ∧
    dictGet (store_tool_result rt cid payload) "artifact_path"
      = some (.str (rt ++ "/artifacts/tool_results/" ++ cid ++ ".json")) ∧
    dictGet (store_tool_result rt cid payload) "artifact_hash"
      = some (.str (sha256hex (canonical_json_bytes payload))) := by
  refine ⟨?_, rfl, rfl⟩
  rcases htools : tools tool_name with _ | spec
  · simp [ToolRegistry.invoke, htools, RegEffect.isStore]
  · rcases hd : PolicyEngine.decide env tool_name spec.risk (some args) with
      ⟨allow, reason, req⟩
    simp only [ToolRegistry.invoke, htools, hd]
    rcases allow
    · simp [RegEffect.isStore]
    · rcases req
      · simp only [Bool.not_true, Bool.not_false, ite_false, ite_true,
          ToolRegistry.execAndStore]
        rcases spec.handler args ctx with e | out <;> simp [RegEffect.isStore]
      · rcases happ : is_approved env (match dictGet args "approval_token" with
          | some (.str s) => some s | _ => none)
        · simp [happ, RegEffect.isStore]
        · simp only [happ, Bool.not_true, Bool.not_false, ite_false, ite_true,
            ToolRegistry.execAndStore]
          rcases spec.handler args ctx with e | out <;> simp [RegEffect.isStore]

/-! ## C2 — closed set of audit event types -/

/-- C2: the orchestrator emits an audit event with type `"CriticReport"`
(line 81 of `orchestrator.py`) on every run that reaches the critique
step — here the deterministic null-backend run on a `text` observation —
and `"CriticReport"` is not a member of the closed `AuditEventType` set,
contradicting the claim; the code violates its own `Literal` declaration,
so this is a code bug. -/
theorem C2_code_bug_CriticReport_event_type :
    ((Orchestrator.run_once envPass obsText 2).toOption.map fun p =>
        p.2.map Prod.fst)
      = some ["RunStarted", "ObservationCaptured", "PlanProposed",
              "PlanProposed", "CriticReport", "RunCompleted"] ∧
    "CriticReport" ∉ auditEventTypes := by decide

/-! ## C7 — error containment of `run_once` -/

/-- C7 counterexample: when the journal itself fails, the very first
append (`RunStarted`, before the `try` block) raises and the exception
escapes `run_once` instead of being surfaced as `RunFailed`. -/
theorem C7_counterexample_journal_failure_escapes :
    Orchestrator.run_once envJournalBroken obsText 2
      = .error ⟨"OSError", "disk full"⟩ := rfl

/-- Shared helper: with a reliable journal, an orchestrator append always
succeeds and extends the trace. -/
theorem orchAppend_reliable (env : OrchEnv) (hj : ∀ k, env.journal_fail k = none)
    (st : JSt) (ty : String) (p : Json) :
    orchAppend env st ty p = .ok (st.1 + 1, st.2 ++ [(ty, p)]) := by
  simp [orchAppend, hj st.1]

/-- Shared helper: with a reliable journal the attempt loop always
returns (every attempt-body exception is handled). -/
theorem runAttempts_reliable_isOk (env : OrchEnv)
    (hj : ∀ k, env.journal_fail k = none) (obs : ObservationEvent) (m : Nat) :
    ∀ rem attempt st results,
      (runAttempts env obs m rem attempt st results).isOk = true := by
  intro rem
  induction rem with
  | zero =>
    intro attempt st results
    simp [runAttempts, orchAppend_reliable env hj, Except.isOk, Except.toBool]
  | succ n ih =>
    intro attempt st results
    simp only [runAttempts]
    rcases h : attemptBody env obs attempt m st results with ⟨e, st', results'⟩ | out
    · simp [h, orchAppend_reliable env hj, Except.isOk, Except.toBool]
    · rcases out with ⟨res, st'⟩ | ⟨st', results'⟩
      · simp [h, Except.isOk, Except.toBool]
      · simp only [h]
        exact ih _ _ _

/-- C7 as amended: provided the orchestrator's own journal appends never
fail, `run_once` never raises — for every observation, attempt bound and
behaviour of the backends and the registry, including raising ones — and
an exception from the attempt body is converted by the handler into a
`RunFailed` event plus a returned failure result carrying
`<ErrorKind>: <message>`.  (Without that proviso the exception escapes:
see the counterexample.) -/
theorem C7_amended_run_once_total_with_reliable_journal (env : OrchEnv)
    (obs : ObservationEvent) (max_attempts : Nat)
    (hj : ∀ k, env.journal_fail k = none) :
    (Orchestrator.run_once env obs max_attempts).isOk = true ∧
    ∀ rem attempt st results e st' results',
      attemptBody env obs attempt max_attempts st results
          = .error (e, st', results') →
      runAttempts env obs max_attempts (rem + 1) attempt st results =
        .ok (⟨obs.run_id, false, results', some e.fmt⟩,
             (st'.1 + 1, st'.2 ++ [("RunFailed",
               Json.obj [("error", .str e.fmt), ("attempts", .int attempt)])])) := by
  constructor
  · have key : ∀ (x : Except Exn (RunResult × JSt)), x.isOk = true →
        (((fun (a : RunResult × JSt) => (a.1, a.2.2)) <$> x)).isOk = true := by
      intro x hx
      cases x <;> simp_all [Functor.map, Except.map, Except.isOk, Except.toBool]
    simp only [Orchestrator.run_once, orchAppend_reliable env hj, bind, Except.bind]
    exact key _ (runAttempts_reliable_isOk env hj obs max_attempts _ _ _ _)
  · intro rem attempt st results e st' results' hb
    simp [runAttempts, hb, orchAppend_reliable env hj]

/-- C7 witness: a concrete reliable-journal environment whose planner
resolution raises; `run_once` still returns. -/
theorem C7_amended_witness :
    (Orchestrator.run_once envPlannerRaises obsText 2).isOk = true :=
  (C7_amended_run_once_total_with_reliable_journal envPlannerRaises obsText 2
    (fun _ => rfl)).1

/-! ## C8 — cap-rejected `set` and live entries -/

/-- C8 counterexample: a first `set` stores a live entry under `"k"`;  a
second `set` to the same key is rejected by the byte cap yet the store's
live entries afterwards are empty — the rejected overwrite evicted the
prior live entry, contradicting "no live entry is evicted ... including
... an overwrite". -/
theorem C8_counterexample_rejected_overwrite_loses_entry :
    (WorkingMemory.set pyReprLen wmTiny "k" "a" 10 0 none).1 = true ∧
    (WorkingMemory.get wmAfterFirstSet "k" 1).1 = some "a" ∧
    (WorkingMemory.set pyReprLen wmAfterFirstSet "k" "abcd" 10 1 none).1 = false ∧
    (WorkingMemory.set pyReprLen wmAfterFirstSet "k" "abcd" 10 1 none).2.items
      = [] := by
  decide

/-- Shared helper: erasing an absent key is the identity. -/
theorem eraseKey_not_found {V : Type} (items : List (String × WMEntry V))
    (key : String) (h : items.find? (·.1 == key) = none) :
    eraseKey items key = items := by
  induction items with
  | nil => rfl
  | cons q rest ih =>
    rcases hk : (q.1 == key) with _ | _
    · simp only [List.find?, hk] at h
      simp [eraseKey, hk, ih h]
    · simp only [List.find?, hk] at h
      simp at h

/-- C8 as amended: when a positive-TTL `set` is rejected by a cap, the
resulting entries are exactly the expiry-evicted entries with any prior
binding of the target key removed — no live entry at another key is
evicted, but a rejected overwrite does lose the target key's prior
entry (it is dropped before the cap check and not restored). -/
theorem C8_amended_cap_rejection_drops_only_target_key {V : Type}
    (sizeOfV : V → Nat) (wm : WorkingMemory V) (key : String) (value : V)
    (ttl_seconds now : Int) (run_id : Option String)
    (hfalse : (WorkingMemory.set sizeOfV wm key value ttl_seconds now run_id).1
      = false)
    (httl : 0 < ttl_seconds) :
    ((WorkingMemory.set sizeOfV wm key value ttl_seconds now run_id).2).items
      = eraseKey (wm.evictExpired now).items key := by
  rcases hfind : (wm.evictExpired now).items.find? (·.1 == key) with _ | p
  · have herase := eraseKey_not_found _ key hfind
    simp only [WorkingMemory.set, hfind, if_neg (by omega : ¬ ttl_seconds ≤ 0),
      Option.isSome_none, Bool.false_eq_true, if_false, ite_false] at hfalse ⊢
    split_ifs at hfalse ⊢ <;> simp_all
  · simp only [WorkingMemory.set, WorkingMemory.drop, hfind, Option.isSome_some,
      if_neg (by omega : ¬ ttl_seconds ≤ 0), ite_true] at hfalse ⊢
    split_ifs at hfalse ⊢ <;> simp_all

/-- C8 witness: the amended theorem applied to the concrete rejected
overwrite. -/
theorem C8_amended_witness :
    (WorkingMemory.set pyReprLen wmAfterFirstSet "k" "abcd" 10 1 none).1
        = false ∧
      ((WorkingMemory.set pyReprLen wmAfterFirstSet "k" "abcd" 10 1 none).2).items
        = eraseKey (wmAfterFirstSet.evictExpired 1).items "k" :=
  ⟨by decide,
   C8_amended_cap_rejection_drops_only_target_key pyReprLen wmAfterFirstSet
     "k" "abcd" 10 1 none (by decide) (by decide)⟩

/-! ## C3 — what the hash field is computed over -/

set_option maxRecDepth 100000 in
/-- C3 counterexample: for a concrete first append, the stored hash is not
the content hash of the record with the `hash` key absent (the two
canonical encodings differ — the code hashes the variant carrying
`"hash":null`). -/
theorem C3_counterexample_hash_input_not_absent :
    ev3.hash ≠ some (stable_sha256 ev3.asdictHashAbsent) ∧
    canonical_json_bytes (AuditEvent.asdict { ev3 with hash := none })
      ≠ canonical_json_bytes ev3.asdictHashAbsent := by decide

/-- C3 as amended: the hash field is computed over the canonical encoding
of the record with `hash` set to the null sentinel (the key is present and
encodes as `null`, not absent), and the verifier recomputes the hash the
same way — setting the parsed record's `hash` key to null rather than
removing it — so the two agree on every appended record. -/
theorem C3_amended_hash_null_sentinel_roundtrip (redact : String → String)
    (st : WriterState) (c : AppendCall) :
    ((AuditWriter.append redact st c).2).hash
        = some (verifyRecompute (AuditWriter.append redact st c).2) ∧
    jsonObjGet (AuditEvent.asdict
        { (AuditWriter.append redact st c).2 with hash := none }) "hash"
      = some Json.null ∧
    jsonObjGet (AuditEvent.asdictHashAbsent (AuditWriter.append redact st c).2)
        "hash" = none := ⟨rfl, rfl, rfl⟩

/-! ## C6 — unbroken append sequences verify -/

/-- Shared helper: the tip after appending a record is that record's
stored hash. -/
theorem lastTip_append (prev : Option String) (recs : List AuditEvent)
    (r : AuditEvent) : lastTip prev (recs ++ [r]) = r.hash := by
  induction recs generalizing prev with
  | nil => rfl
  | cons q rest ih =>
    simp only [List.cons_append, lastTip]
    exact ih q.hash

/-- Shared helper: a verified prefix stays verified after appending a
record whose `prev_hash` is the prefix tip and whose stored hash matches
the verifier's recomputation. -/
theorem verifyLoop_append (prev : Option String) (n : Nat)
    (recs : List AuditEvent) (r : AuditEvent)
    (h : (verifyLoop prev n recs).1 = true)
    (hprev : r.prev_hash = lastTip prev recs)
    (hhash : r.hash = some (verifyRecompute r)) :
    (verifyLoop prev n (recs ++ [r])).1 = true := by
  induction recs generalizing prev n with
  | nil =>
    simp only [List.nil_append, verifyLoop]
    rw [if_neg (by simp [hprev, lastTip]), if_neg (by simp [hhash])]
  | cons q rest ih =>
    simp only [verifyLoop] at h
    split_ifs at h with h1 h2
    simp only [List.cons_append, verifyLoop]
    rw [if_neg h1, if_neg h2]
    simp only [lastTip] at hprev
    exact ih q.hash (n + 1) h hprev

/-- Shared helper: the stored hash of every appended record equals the
verifier's recomputation of it. -/
theorem append_recompute (redact : String → String) (st : WriterState)
    (c : AppendCall) :
    ((AuditWriter.append redact st c).2).hash
      = some (verifyRecompute (AuditWriter.append redact st c).2) := rfl

/-- Shared helper: appending any calls to a writer whose file verifies and
whose tip is the file's chain tip keeps the file verifying. -/
theorem appendAll_verify (redact : String → String) :
    ∀ (calls : List AppendCall) (st : WriterState) (recs : List AuditEvent),
      st.file = some recs → st.last_hash = lastTip none recs →
      (verifyLoop none 1 recs).1 = true →
      (verify_audit_log (AuditWriter.appendAll redact st calls).file).1 = true := by
  intro calls
  induction calls with
  | nil =>
    intro st recs hfile htip hver
    simp [AuditWriter.appendAll, verify_audit_log, hfile, hver]
  | cons c cs ih =>
    intro st recs hfile htip hver
    simp only [AuditWriter.appendAll]
    apply ih (AuditWriter.append redact st c).1
      (recs ++ [(AuditWriter.append redact st c).2])
    · simp [AuditWriter.append, hfile]
    · simp only [AuditWriter.append, lastTip_append]
    · exact verifyLoop_append none 1 recs _ hver
        (by simp [AuditWriter.append, htip, lastTip])
        (append_recompute redact st c)

/-- C6: every audit log produced by an unbroken sequence of `append` calls
verifies — starting from an absent file (at least one append, which
creates it) or from an existing empty file (any number of appends):
each record's `prev_hash` equals the previous record's hash (absent on the
first record) and each recomputed content hash matches the stored one. -/
theorem C6_append_chain_verifies (redact : String → String)
    (calls : List AppendCall) (c0 : AppendCall) :
    (verify_audit_log
        ((AuditWriter.appendAll redact WriterState.initAbsent
          (c0 :: calls)).file)).1 = true ∧
    (verify_audit_log
        ((AuditWriter.appendAll redact WriterState.initEmptyFile
          calls).file)).1 = true := by
  constructor
  · simp only [AuditWriter.appendAll]
    apply appendAll_verify redact calls _
      ([] ++ [(AuditWriter.append redact WriterState.initAbsent c0).2])
    · rfl
    · simp only [AuditWriter.append, lastTip_append]
    · exact verifyLoop_append none 1 [] _ rfl rfl
        (append_recompute redact WriterState.initAbsent c0)
  · exact appendAll_verify redact calls WriterState.initEmptyFile [] rfl rfl rfl

/-! ## C10 — no raw newline byte in emitted lines -/

/-- Shared helper: hex digit characters are never the newline. -/
theorem hexDigit_ne_nl (n : Nat) : (hexDigit n).toNat ≠ 10 := by
  unfold hexDigit
  split <;> decide

/-- Shared helper: decimal digit characters are never the newline. -/
theorem digitChar_ne_nl (n : Nat) : (digitChar n).toNat ≠ 10 := by
  unfold digitChar
  split <;> decide

/-- Shared helper: the JSON string escaper never emits a raw newline
character — a newline in the input becomes the two characters `\`, `n`,
and every other control character is escaped too. -/
theorem escapeChar_no_nl (d c : Char) (hm : c ∈ escapeChar d) : c.toNat ≠ 10 := by
  unfold escapeChar at hm
  split_ifs at hm with h1 h2 h3 h4 h5 h6 h7 h8
  iterate 7
    simp only [List.mem_cons] at hm
    rcases hm with rfl | rfl | h
    · decide
    · decide
    · exact absurd h (List.not_mem_nil c)
  · simp only [List.mem_cons] at hm
    rcases hm with rfl | rfl | rfl | rfl | rfl | rfl | h
    · decide
    · decide
    · decide
    · decide
    · exact hexDigit_ne_nl _
    · exact hexDigit_ne_nl _
    · exact absurd h (List.not_mem_nil c)
  · simp only [List.mem_cons] at hm
    rcases hm with rfl | h
    · omega
    · exact absurd h (List.not_mem_nil c)

/-- Shared helper: serialized string literals contain no raw newline. -/
theorem serStr_no_nl (s : String) (c : Char) (hm : c ∈ serStr s) :
    c.toNat ≠ 10 := by
  simp only [serStr, List.mem_cons, List.mem_append] at hm
  rcases hm with (rfl | hm) | (rfl | h)
  · decide
  · rw [List.mem_flatMap] at hm
    obtain ⟨d, _, hd⟩ := hm
    exact escapeChar_no_nl d c hd
  · decide
  · exact absurd h (List.not_mem_nil c)

theorem natDigitsF_no_nl :
    ∀ (fuel n : Nat) (c : Char), c ∈ natDigitsF fuel n → c.toNat ≠ 10
  | 0, n, c, hm => by simp [natDigitsF] at hm
  | fuel + 1, n, c, hm => by
    unfold natDigitsF at hm
    split_ifs at hm with h
    · simp only [List.mem_singleton] at hm
      subst hm
      exact digitChar_ne_nl n
    · rw [List.mem_append] at hm
      rcases hm with hm | hm
      · exact natDigitsF_no_nl fuel (n / 10) c hm
      · simp only [List.mem_singleton] at hm
        subst hm
        exact digitChar_ne_nl _

theorem serInt_no_nl (n : Int) (c : Char) (hm : c ∈ serInt n) : c.toNat ≠ 10 := by
  unfold serInt natDigits at hm
  split_ifs at hm with h
  · rcases List.mem_cons.mp hm with rfl | hm
    · decide
    · exact natDigitsF_no_nl _ _ c hm
  · exact natDigitsF_no_nl _ _ c hm

theorem joinComma_no_nl :
    ∀ (L : List (List Char)), (∀ p ∈ L, ∀ c ∈ p, c.toNat ≠ 10) →
      ∀ c ∈ joinComma L, c.toNat ≠ 10
  | [], _, c, hm => by simp [joinComma] at hm
  | [x], hL, c, hm => hL x (by simp) c (by simpa [joinComma] using hm)
  | x :: y :: rest, hL, c, hm => by
    simp only [joinComma, List.mem_append, List.mem_cons] at hm
    rcases hm with hm | rfl | hm
    · exact hL x (by simp) c hm
    · decide
    · exact joinComma_no_nl (y :: rest)
        (fun p hp => hL p (List.mem_cons_of_mem x hp)) c hm

mutual

/-- Shared helper: the serializer emits no raw newline character, for any
JSON value — including strings whose content holds newlines or other
control characters. -/
theorem serJson_no_nl : ∀ (j : Json) (c : Char), c ∈ serJson j → c.toNat ≠ 10
  | .null, c, hm => by
    simp only [serJson, List.mem_cons] at hm
    rcases hm with rfl | rfl | rfl | rfl | h
    · decide
    · decide
    · decide
    · decide
    · exact absurd h (List.not_mem_nil c)
  | .bool b, c, hm => by
    rcases b
    · simp only [serJson, List.mem_cons] at hm
      rcases hm with rfl | rfl | rfl | rfl | rfl | h
      · decide
      · decide
      · decide
      · decide
      · decide
      · exact absurd h (List.not_mem_nil c)
    · simp only [serJson, List.mem_cons] at hm
      rcases hm with rfl | rfl | rfl | rfl | h
      · decide
      · decide
      · decide
      · decide
      · exact absurd h (List.not_mem_nil c)
  | .int n, c, hm => serInt_no_nl n c hm
  | .str s, c, hm => serStr_no_nl s c hm
  | .arr xs, c, hm => by
    simp only [serJson, List.mem_append, List.mem_cons] at hm
    rcases hm with (rfl | hm) | (rfl | h)
    · decide
    · exact joinComma_no_nl (serList xs)
        (fun p hp d hd => serList_no_nl xs p hp d hd) c hm
    · decide
    · exact absurd h (List.not_mem_nil c)
  | .obj kvs, c, hm => by
    simp only [serJson, List.mem_append, List.mem_cons] at hm
    rcases hm with (rfl | hm) | (rfl | h)
    · decide
    · exact joinComma_no_nl (serKVList kvs)
        (fun p hp d hd => serKVList_no_nl kvs p hp d hd) c hm
    · decide
    · exact absurd h (List.not_mem_nil c)

theorem serList_no_nl :
    ∀ (xs : List Json) (p : List Char), p ∈ serList xs → ∀ c ∈ p, c.toNat ≠ 10
  | [], p, hp, _, _ => by simp [serList] at hp
  | x :: xs, p, hp, c, hc => by
    simp only [serList, List.mem_cons] at hp
    rcases hp with rfl | hp
    · exact serJson_no_nl x c hc
    · exact serList_no_nl xs p hp c hc

theorem serKVList_no_nl :
    ∀ (kvs : List (String × Json)) (p : List Char), p ∈ serKVList kvs →
      ∀ c ∈ p, c.toNat ≠ 10
  | [], p, hp, _, _ => by simp [serKVList] at hp
  | (k, v) :: kvs, p, hp, c, hc => by
    simp only [serKVList, List.mem_cons] at hp
    rcases hp with rfl | hp
    · rcases List.mem_append.mp hc with h | h
      · exact serStr_no_nl k c h
      · rcases List.mem_cons.mp h with rfl | h
        · decide
        · exact serJson_no_nl v c h
    · exact serKVList_no_nl kvs p hp c hc

end

/-- Shared helper: the UTF-8 bytes of any non-newline character avoid
`0x0A` (ASCII bytes are the code point itself; multi-byte sequences use
bytes at or above `0x80`). -/
theorem utf8Char_no_nl (c : Char) (hc : c.toNat ≠ 10) :
    ∀ b ∈ utf8Char c, b ≠ 10 := by
  intro b hb
  unfold utf8Char at hb
  dsimp only at hb
  split_ifs at hb with h1 h2 h3
  · simp only [List.mem_singleton] at hb
    omega
  · simp only [List.mem_cons] at hb
    rcases hb with rfl | rfl | h
    · omega
    · omega
    · exact absurd h (List.not_mem_nil b)
  · simp only [List.mem_cons] at hb
    rcases hb with rfl | rfl | rfl | h
    · omega
    · omega
    · omega
    · exact absurd h (List.not_mem_nil b)
  · simp only [List.mem_cons] at hb
    rcases hb with rfl | rfl | rfl | rfl | h
    · omega
    · omega
    · omega
    · omega
    · exact absurd h (List.not_mem_nil b)

/-- Shared helper: canonical JSON bytes never contain the raw byte
`0x0A`. -/
theorem canonical_json_bytes_no_nl (j : Json) :
    ∀ b ∈ canonical_json_bytes j, b ≠ 10 := by
  intro b hb
  unfold canonical_json_bytes utf8Encode at hb
  rw [List.mem_flatMap] at hb
  obtain ⟨c, hcmem, hcb⟩ := hb
  exact utf8Char_no_nl c (serJson_no_nl _ c hcmem) b hcb

/-- C10: for every audit event — any payload, including string values with
newlines or other control characters — the canonical JSON bytes contain no
raw `0x0A`, so the line `_write_line` appends holds exactly one newline
byte, at its end: one record occupies exactly one newline-terminated
line. -/
theorem C10_append_emits_single_line (ev : AuditEvent) :
    (canonical_json_bytes ev.asdict).count 10 = 0 ∧
    (writeLineBytes ev).count 10 = 1 ∧
    (writeLineBytes ev).getLast? = some 10 := by
  have h0 : (canonical_json_bytes ev.asdict).count 10 = 0 :=
    List.count_eq_zero.mpr (fun hmem => canonical_json_bytes_no_nl _ 10 hmem rfl)
  refine ⟨h0, ?_, ?_⟩
  · unfold writeLineBytes
    rw [List.count_append, h0]
    rfl
  · unfold writeLineBytes
    rw [List.getLast?_concat]

end PieBot

